import Mathlib

/-!
Shallow embedding of the data-normalization and aggregation pipeline of
`src/app.py` (isotope-production dashboard).

Conventions of the embedding:
* Real-valued quantities (`Total_Production_TBq`, coordinates) are modelled
  over `ℚ`; decimal literals are exact scientific literals.
* A pandas DataFrame column is modelled as a `List` of per-row values; the
  whole frame as a `List` of row structures.
* `pd.to_numeric(col, errors = coerce)` turns an unparseable cell (for
  example the sentinel string NR) into NaN.  A raw production cell is
  therefore embedded as `Option ℚ`: `none` is the coerce-to-NaN outcome for
  an unparseable cell, `some q` the successfully parsed value.
* A `Major_Isotopes` cell read from CSV is a string when present and the
  float NaN when missing; the code branches on `isinstance(x, str)`.  It is
  embedded as `Option String`, `none` standing for any non-string cell.
-/

namespace IsotopeViz

/-- One raw CSV row, as consumed by the cleaning block of `app.py`
(fields `Country`, `Major_Isotopes`, `Total_Production_TBq`).
`total_Production_TBq` carries the verdict of
`pd.to_numeric(..., errors = coerce)` on the raw cell:
`none` when the cell is unparseable as a number (e.g. NR), `some q`
when it parses to the rational `q`. `major_Isotopes` is `none` when the
cell is not a string (missing value). -/
structure RawRecord where
  country : String
  major_Isotopes : Option String
  total_Production_TBq : Option ℚ
deriving DecidableEq, Repr

/-- `COUNTRY_COORDS` of `app.py` (lines 36-61): country name to
(latitude, longitude). -/
def COUNTRY_COORDS : List (String × ℚ × ℚ) :=
  [("Australia", -25.27, 133.78),
   ("Austria", 47.52, 14.55),
   ("Belarus", 53.71, 27.95),
   ("Belgium", 50.50, 4.47),
   ("Brazil", -14.24, -51.93),
   ("Chile", -35.68, -71.54),
   ("Czech Republic", 49.82, 15.47),
   ("Egypt", 26.82, 30.80),
   ("European Commission", 50.85, 4.35),
   ("Finland", 61.92, 25.75),
   ("France", 46.23, 2.21),
   ("Germany", 51.17, 10.45),
   ("India", 20.59, 78.96),
   ("Indonesia", -0.79, 113.92),
   ("Iran", 32.43, 53.69),
   ("Japan", 36.20, 138.25),
   ("Korea", 35.91, 127.77),
   ("Pakistan", 30.38, 69.35),
   ("South Africa", -30.56, 22.94),
   ("Spain", 40.46, -3.75),
   ("Switzerland", 46.82, 8.23),
   ("Syria", 34.80, 38.99),
   ("Turkey", 38.96, 35.24),
   ("USA", 37.09, -95.71)]

/-- `ISO_CODES` of `app.py` (lines 64-89): country name to ISO3 code. -/
def ISO_CODES : List (String × String) :=
  [("Australia", "AUS"),
   ("Austria", "AUT"),
   ("Belarus", "BLR"),
   ("Belgium", "BEL"),
   ("Brazil", "BRA"),
   ("Chile", "CHL"),
   ("Czech Republic", "CZE"),
   ("Egypt", "EGY"),
   ("European Commission", "EUR"),
   ("Finland", "FIN"),
   ("France", "FRA"),
   ("Germany", "DEU"),
   ("India", "IND"),
   ("Indonesia", "IDN"),
   ("Iran", "IRN"),
   ("Japan", "JPN"),
   ("Korea", "KOR"),
   ("Pakistan", "PAK"),
   ("South Africa", "ZAF"),
   ("Spain", "ESP"),
   ("Switzerland", "CHE"),
   ("Syria", "SYR"),
   ("Turkey", "TUR"),
   ("USA", "USA")]

/-- Line 116 of `app.py`: `COUNTRY_COORDS.get(x, {}).get('lat', 0)` —
exact-string dictionary lookup, defaulting to `0`. -/
def countryLat (c : String) : ℚ :=
  match COUNTRY_COORDS.lookup c with
  | some p => p.1
  | none => 0

/-- Line 117 of `app.py`: `COUNTRY_COORDS.get(x, {}).get('lon', 0)`. -/
def countryLon (c : String) : ℚ :=
  match COUNTRY_COORDS.lookup c with
  | some p => p.2
  | none => 0

/-- Line 118 of `app.py`: `ISO_CODES.get(x, '')`. -/
def countryISO (c : String) : String :=
  (ISO_CODES.lookup c).getD ""

/-- Python `x.split(',')`, embedded at the character level: split on every
comma, keeping empty segments (the empty string yields one empty
segment). -/
def pySplitComma (s : String) : List String :=
  (s.toList.splitOn ',').map String.mk

/-- Python `x.strip()` (ASCII whitespace), embedded at the character level:
drop whitespace from both ends. -/
def pyStrip (s : String) : String :=
  String.mk (((s.toList.dropWhile Char.isWhitespace).reverse.dropWhile
    Char.isWhitespace).reverse)

/-- Lines 121-123 of `app.py`:
`[iso.strip() for iso in x.split(',')] if isinstance(x, str) else []`.
Note that Python `x.split(',')` keeps empty segments (and yields one empty
segment for the empty string). -/
def isotope_list : Option String → List String
  | some x => (pySplitComma x).map pyStrip
  | none => []

/-- One normalized row of the canonical dataset (the columns of the cleaned
DataFrame that the aggregations read). -/
structure Record where
  country : String
  productionTBq : ℚ
  isotopes : List String
  latitude : ℚ
  longitude : ℚ
  isoCode : String
deriving DecidableEq, Repr

/-- The row normalizer: lines 112-123 of `app.py` applied to one row.
`to_numeric(errors = coerce)` followed by `fillna(0)` is
`Option.getD 0`: an unparseable cell becomes `0`, a parsed value (of either
sign) passes through unchanged. -/
def normalizeRow (r : RawRecord) : Record :=
  { country := r.country
    productionTBq := r.total_Production_TBq.getD 0
    isotopes := isotope_list r.major_Isotopes
    latitude := countryLat r.country
    longitude := countryLon r.country
    isoCode := countryISO r.country }

/-- The dataset builder: the cleaning block applied independently to every
row of the frame. -/
def buildDataset (rs : List RawRecord) : List Record :=
  rs.map normalizeRow

/-- Filter parameters produced by the sidebar widgets (lines 127-138). -/
structure FilterSpec where
  minProduction : ℚ
  selectedCountries : List String
deriving DecidableEq, Repr

/-- The row predicate of lines 141-144:
`(df['Total_Production_TBq'] >= min_production) & (df['Country'].isin(selected_countries))`. -/
def recordPasses (sp : FilterSpec) (r : Record) : Bool :=
  decide (sp.minProduction ≤ r.productionTBq) && sp.selectedCountries.contains r.country

/-- `filtered_df` (lines 141-144): boolean-mask row selection, i.e. the
subsequence of rows satisfying the conjunction. -/
def applyFilter (ds : List Record) (sp : FilterSpec) : List Record :=
  ds.filter (recordPasses sp)

/-- `DataFrame.sort_values(column, ascending=False)` with the default sort
kind, as pandas implements it (`pandas.core.sorting.nargsort`): for a
descending sort the input is reversed first, the ascending argsort of the
reversed values is taken, and the resulting indexer is reversed back.  The
double reversal around the (for frames of this size stable) underlying
numpy sort yields a stable descending sort: rows with equal keys keep their
original relative order.  The embedding is therefore the stable descending
insertion sort. -/
def sort_values_desc (l : List Record) : List Record :=
  l.insertionSort (fun a b => b.productionTBq ≤ a.productionTBq)

/-- `top_countries` (line 213 of `app.py`):
`filtered_df.sort_values('Total_Production_TBq', ascending=False).head(n)`
with `n = 10` at the call site; `head` kept parametric. -/
def top_countries (view : List Record) (n : ℕ) : List Record :=
  (sort_values_desc view).take n

/-- Lines 251-253 of `app.py`: the concatenation of the `Isotope_List`
column of the full (unfiltered) frame, in row order. -/
def all_isotopes (ds : List Record) : List String :=
  ds.flatMap Record.isotopes

/-- The distinct values of a list in order of first appearance — the key
order produced by the pandas value-count hash table, which tracks first
occurrence explicitly. -/
def firstSeenKeys (l : List String) : List String :=
  l.foldl (fun acc x => if x ∈ acc then acc else acc ++ [x]) []

/-- `pd.Series(l).value_counts()` (line 255): occurrence counts keyed in
first-appearance order, then `Series.sort_values(ascending=False)` — which
goes through the same `nargsort` double reversal as `sort_values_desc` and
is therefore a stable descending sort by count: count ties keep the
first-seen key order. -/
def value_counts (l : List String) : List (String × ℕ) :=
  ((firstSeenKeys l).map (fun x => (x, l.count x))).insertionSort
    (fun a b => b.2 ≤ a.2)

/-- `isotope_counts` (lines 250-256 of `app.py`): value counts of the
concatenated isotope lists of the full frame `df` (never `filtered_df`). -/
def isotope_counts (ds : List Record) : List (String × ℕ) :=
  value_counts (all_isotopes ds)

/-- One row of `matrix_df` (lines 287-291): isotope, country, production. -/
structure IsotopeCountryEntry where
  isotope : String
  country : String
  production : ℚ
deriving DecidableEq, Repr

/-- `isotope_matrix` (lines 283-291 of `app.py`): for every row of
`filtered_df`, for every isotope in its `Isotope_List`, one entry carrying
the row's country and its full `Total_Production_TBq`. -/
def isotope_matrix (view : List Record) : List IsotopeCountryEntry :=
  view.flatMap (fun r =>
    r.isotopes.map (fun iso =>
      { isotope := iso, country := r.country, production := r.productionTBq }))

/-- Total production of a view: `sum(productionTBq over view)`. -/
def totalProduction (view : List Record) : ℚ :=
  (view.map Record.productionTBq).sum

/-- Modelled from the spec: `DistributionShares(view)`.  The share
computation of the source happens inside the external `px.pie` call
(lines 230-238), which is not code of this repository; the definition
follows the spec's words: for each Record, share =
`productionTBq / sum(productionTBq over view)`, and when the sum is `0`
(all-zero or empty view) every share is `0` instead of a division by
zero. -/
def distributionShares (view : List Record) : List (String × ℚ) :=
  view.map (fun r =>
    (r.country, if totalProduction view = 0 then 0 else r.productionTBq / totalProduction view))

/-- The derived tables the dashboard body computes from the raw frame and
the sidebar filter parameters, with each aggregation reading the frame the
source reads: `top_countries` and `isotope_matrix` read `filtered_df`,
`isotope_counts` reads the unfiltered `df`. -/
structure DashboardTables where
  filtered : List Record
  topCountries : List Record
  isotopeCounts : List (String × ℕ)
  isotopeMatrix : List IsotopeCountryEntry
deriving Repr

/-- The dataflow of `main()`: clean the raw frame, filter it, and derive
the aggregation tables. -/
def runDashboard (raw : List RawRecord) (sp : FilterSpec) : DashboardTables :=
  let df := buildDataset raw
  let fdf := applyFilter df sp
  { filtered := fdf
    topCountries := top_countries fdf 10
    isotopeCounts := isotope_counts df
    isotopeMatrix := isotope_matrix fdf }

/-- Follows the spec's words (for comparison with `isotope_list`): the
non-empty, whitespace-trimmed comma-separated segments of a field. -/
def specNonemptySegments (s : String) : List String :=
  ((pySplitComma s).map pyStrip).filter (fun t => t ≠ "")

/-! Concrete sample rows used by witnesses and counterexamples. -/

/-- A row whose production cell is the unparseable sentinel (e.g. NR) and
whose isotope cell is missing. -/
def rawNR : RawRecord :=
  { country := "X", major_Isotopes := none, total_Production_TBq := none }

/-- A row whose production cell parses to a negative number. -/
def rawNeg : RawRecord :=
  { country := "USA", major_Isotopes := some "Ir-192",
    total_Production_TBq := some (-5) }

/-- A well-formed row with two isotopes. -/
def rawBelgium : RawRecord :=
  { country := "Belgium", major_Isotopes := some "Mo-99, I-131",
    total_Production_TBq := some 2000 }

/-- A row whose country is spelled in lower case, hence absent from both
reference tables (which hold the key USA). -/
def rawLower : RawRecord :=
  { country := "usa", major_Isotopes := none, total_Production_TBq := none }

/-- A row whose isotope cell has trailing empty comma segments. -/
def rawEmptySeg : RawRecord :=
  { country := "X", major_Isotopes := some "Mo-99,,",
    total_Production_TBq := none }

/-! Theorems. Each claim's theorem carries the claim id in its doc
comment. -/

/-- C3: for every RawRecord whose production cell is unparseable as a real
number (`to_numeric` coerces it to NaN, embedded as `none`), the normalized
`productionTBq` is exactly `0`, so no missing-value marker survives
normalization. -/
theorem unparseable_production_is_zero (raw : RawRecord)
    (h : raw.total_Production_TBq = none) :
    (normalizeRow raw).productionTBq = 0 := by
  simp [normalizeRow, h]

/-- Witness for C3 at the concrete NR row. -/
theorem unparseable_production_is_zero_witness :
    rawNR.total_Production_TBq = none ∧ (normalizeRow rawNR).productionTBq = 0 :=
  ⟨rfl, unparseable_production_is_zero rawNR rfl⟩

/-- C4 counterexample: the isotope cell with text Mo-99 followed by two
commas normalizes to three isotopes — Python `split(',')` keeps empty
segments — while the field has exactly one non-empty trimmed segment, so
the length of `isotopes` differs from the number of non-empty trimmed
comma-separated segments. -/
theorem isotope_list_keeps_empty_segments :
    (normalizeRow rawEmptySeg).isotopes = ["Mo-99", "", ""]
    ∧ (specNonemptySegments "Mo-99,,").length = 1
    ∧ (normalizeRow rawEmptySeg).isotopes.length ≠ (specNonemptySegments "Mo-99,,").length := by
  decide

/-- C4 (amended): the `isotopes` sequence is the comma-split of the source
field with every segment whitespace-trimmed and empty segments retained, in
order of appearance — so its length equals the number of comma-separated
segments, not the number of non-empty ones — and a missing or non-string
field yields the empty sequence. -/
theorem isotope_list_spec (raw : RawRecord) :
    (∀ s, raw.major_Isotopes = some s →
      (normalizeRow raw).isotopes = (pySplitComma s).map pyStrip
      ∧ (normalizeRow raw).isotopes.length = (pySplitComma s).length)
    ∧ (raw.major_Isotopes = none → (normalizeRow raw).isotopes = []) := by
  constructor
  · intro s hs
    simp [normalizeRow, isotope_list, hs]
  · intro hnone
    simp [normalizeRow, isotope_list, hnone]

/-- Witness for C4 at a present two-isotope cell and a missing cell. -/
theorem isotope_list_spec_witness :
    (normalizeRow rawBelgium).isotopes = (pySplitComma "Mo-99, I-131").map pyStrip
    ∧ (normalizeRow rawNR).isotopes = [] :=
  ⟨((isotope_list_spec rawBelgium).1 "Mo-99, I-131" rfl).1,
   (isotope_list_spec rawNR).2 rfl⟩

/-- C8 counterexample: a production cell parsing to `-5` passes through
`fillna(0)` untouched, so the normalized record has a negative
`productionTBq`. -/
theorem negative_production_passes_through :
    (normalizeRow rawNeg).productionTBq = -5
    ∧ (normalizeRow rawNeg).productionTBq < 0 := by
  refine ⟨rfl, ?_⟩
  norm_num [normalizeRow, rawNeg]

/-- C8 (amended): an unparseable production cell normalizes to `0` and a
parsed value passes through unchanged, so `productionTBq` is non-negative
exactly when the parsed value is non-negative (or the cell unparseable);
a negative parsed value yields a negative `productionTBq`. -/
theorem production_passthrough_spec (raw : RawRecord) :
    (raw.total_Production_TBq = none → (normalizeRow raw).productionTBq = 0)
    ∧ (∀ q, raw.total_Production_TBq = some q → (normalizeRow raw).productionTBq = q)
    ∧ (∀ q, raw.total_Production_TBq = some q → 0 ≤ q →
        0 ≤ (normalizeRow raw).productionTBq) := by
  refine ⟨fun h => by simp [normalizeRow, h], fun q h => by simp [normalizeRow, h], ?_⟩
  intro q h hq
  simpa [normalizeRow, h] using hq

/-- Witness for C8 at a non-negative row and the NR row. -/
theorem production_passthrough_spec_witness :
    0 ≤ (normalizeRow rawBelgium).productionTBq
    ∧ (normalizeRow rawNR).productionTBq = 0 :=
  ⟨(production_passthrough_spec rawBelgium).2.2 2000 rfl (by norm_num),
   (production_passthrough_spec rawNR).1 rfl⟩

/-- C9: a country absent from both reference tables (lookups return
`none`; the lookup is an exact string match, so e.g. a lower-case spelling
misses) normalizes to latitude `0`, longitude `0` and ISO code the empty
string; the lookups are total functions by construction. -/
theorem unknown_country_defaults (raw : RawRecord)
    (hc : COUNTRY_COORDS.lookup raw.country = none)
    (hi : ISO_CODES.lookup raw.country = none) :
    (normalizeRow raw).latitude = 0
    ∧ (normalizeRow raw).longitude = 0
    ∧ (normalizeRow raw).isoCode = "" := by
  simp [normalizeRow, countryLat, countryLon, countryISO, hc, hi]

/-- Witness for C9 at the lower-case spelling usa, absent from the tables
although USA is present: no case normalization happens. -/
theorem unknown_country_defaults_witness :
    (normalizeRow rawLower).latitude = 0
    ∧ (normalizeRow rawLower).longitude = 0
    ∧ (normalizeRow rawLower).isoCode = "" :=
  unknown_country_defaults rawLower (by decide) (by decide)

/-- The passing predicate, in propositional form. -/
theorem recordPasses_iff (sp : FilterSpec) (r : Record) :
    recordPasses sp r = true
    ↔ sp.minProduction ≤ r.productionTBq ∧ r.country ∈ sp.selectedCountries := by
  simp [recordPasses]

/-- A filter specification selecting no country at all. -/
def spEmpty : FilterSpec := { minProduction := 0, selectedCountries := [] }

/-- C6: `applyFilter` returns exactly the subsequence of records satisfying
`minProduction <= productionTBq` and `country ∈ selectedCountries`: it is a
sublist of the dataset, membership is equivalent to the conjunction, row
multiplicities are preserved for passing rows and zero for failing ones,
and when no record satisfies the conjunction the result is the empty
sequence (the function is total, so no error is possible). -/
theorem applyFilter_spec (ds : List Record) (sp : FilterSpec) :
    (applyFilter ds sp).Sublist ds
    ∧ (∀ r, r ∈ applyFilter ds sp
        ↔ r ∈ ds ∧ sp.minProduction ≤ r.productionTBq ∧ r.country ∈ sp.selectedCountries)
    ∧ (∀ r, (applyFilter ds sp).count r
        = if sp.minProduction ≤ r.productionTBq ∧ r.country ∈ sp.selectedCountries
          then ds.count r else 0)
    ∧ ((∀ r ∈ ds, ¬(sp.minProduction ≤ r.productionTBq ∧ r.country ∈ sp.selectedCountries)) →
        applyFilter ds sp = []) := by
  refine ⟨List.filter_sublist ds, ?_, ?_, ?_⟩
  · intro r
    rw [applyFilter, List.mem_filter, recordPasses_iff]
  · intro r
    by_cases h : sp.minProduction ≤ r.productionTBq ∧ r.country ∈ sp.selectedCountries
    · rw [if_pos h]
      exact List.count_filter ((recordPasses_iff sp r).mpr h)
    · rw [if_neg h, List.count_eq_zero]
      intro hmem
      exact h ((recordPasses_iff sp r).mp (List.mem_filter.mp hmem).2)
  · intro hnone
    rw [applyFilter, List.filter_eq_nil_iff]
    intro r hr hpass
    exact hnone r hr ((recordPasses_iff sp r).mp hpass)

/-- Witness for C6: with an empty country selection nothing passes and the
filtered view is empty. -/
theorem applyFilter_spec_witness :
    applyFilter (buildDataset [rawBelgium, rawNR]) spEmpty = [] :=
  (applyFilter_spec (buildDataset [rawBelgium, rawNR]) spEmpty).2.2.2
    (by intro r hr h; simpa [spEmpty] using h.2)

/-- C10: `applyFilter` is idempotent — filtering an already-filtered view
with the same specification returns it unchanged (hence the same set of
records). -/
theorem applyFilter_idempotent (ds : List Record) (sp : FilterSpec) :
    applyFilter (applyFilter ds sp) sp = applyFilter ds sp := by
  simp [applyFilter, List.filter_filter]

/-- C2: `isotope_matrix` emits one entry per (record, isotope) pair of the
filtered view — its length is the sum over the view of the isotope-list
lengths — every entry carries its source record's country and full,
undivided `productionTBq`, every (record, isotope) pair is represented,
and an empty view yields the empty sequence. -/
theorem isotope_matrix_spec (view : List Record) :
    (isotope_matrix view).length = (view.map (fun r => r.isotopes.length)).sum
    ∧ (view = [] → isotope_matrix view = [])
    ∧ (∀ e ∈ isotope_matrix view, ∃ r, r ∈ view ∧ e.isotope ∈ r.isotopes
        ∧ e.country = r.country ∧ e.production = r.productionTBq)
    ∧ (∀ r ∈ view, ∀ iso ∈ r.isotopes,
        ({ isotope := iso, country := r.country,
           production := r.productionTBq } : IsotopeCountryEntry) ∈ isotope_matrix view) := by
  refine ⟨?_, ?_, ?_, ?_⟩
  · rw [isotope_matrix, List.length_flatMap]
    simp [Function.comp_def]
  · intro h
    simp [isotope_matrix, h]
  · intro e he
    rcases List.mem_flatMap.mp he with ⟨r, hr, hmem⟩
    rcases List.mem_map.mp hmem with ⟨iso, hiso, rfl⟩
    exact ⟨r, hr, hiso, rfl, rfl⟩
  · intro r hr iso hiso
    exact List.mem_flatMap.mpr ⟨r, hr, List.mem_map.mpr ⟨iso, hiso, rfl⟩⟩

/-- Witness for C2: the empty filtered view yields the empty matrix, and
the Belgium row with two isotopes yields two entries both carrying the full
production. -/
theorem isotope_matrix_spec_witness :
    isotope_matrix ([] : List Record) = []
    ∧ ({ isotope := "Mo-99", country := "Belgium",
         production := 2000 } : IsotopeCountryEntry)
        ∈ isotope_matrix (buildDataset [rawBelgium]) :=
  ⟨(isotope_matrix_spec []).2.1 rfl,
   (isotope_matrix_spec (buildDataset [rawBelgium])).2.2.2
     (normalizeRow rawBelgium) (by simp [buildDataset]) "Mo-99" (by decide)⟩

/-- A normalized record with positive production. -/
def recPos : Record := normalizeRow rawBelgium

/-- A normalized record with zero production. -/
def recZero : Record := normalizeRow rawNR

/-- C7: every record's distribution share is its `productionTBq` divided by
the view's total production, the shares sum to `1` whenever the total is
positive, and when the total is `0` (all-zero or empty view) every share is
`0` by the special case, so no division by zero occurs. -/
theorem distributionShares_spec (view : List Record) :
    (distributionShares view).length = view.length
    ∧ (∀ r ∈ view,
        (r.country, if totalProduction view = 0 then 0
          else r.productionTBq / totalProduction view) ∈ distributionShares view)
    ∧ (0 < totalProduction view → ((distributionShares view).map Prod.snd).sum = 1)
    ∧ (totalProduction view = 0 →
        (distributionShares view).map Prod.snd = List.replicate view.length 0) := by
  refine ⟨by simp [distributionShares], ?_, ?_, ?_⟩
  · intro r hr
    exact List.mem_map.mpr ⟨r, hr, rfl⟩
  · intro hpos
    have hne : totalProduction view ≠ 0 := ne_of_gt hpos
    rw [distributionShares, List.map_map]
    have : (Prod.snd ∘ fun r : Record =>
        (r.country, if totalProduction view = 0 then 0
          else r.productionTBq / totalProduction view))
        = fun r : Record => r.productionTBq * (totalProduction view)⁻¹ := by
      funext r
      simp [Function.comp_def, if_neg hne, div_eq_mul_inv]
    rw [this, List.sum_map_mul_right]
    exact mul_inv_cancel₀ hne
  · intro hzero
    rw [distributionShares, List.map_map]
    have : (Prod.snd ∘ fun r : Record =>
        (r.country, if totalProduction view = 0 then 0
          else r.productionTBq / totalProduction view))
        = fun _ : Record => (0 : ℚ) := by
      funext r
      simp [Function.comp_def, if_pos hzero]
    rw [this, List.map_const']

/-- Witness for C7: a single positive-production record gives share sum
`1`; a single zero-production record gives the all-zero share list. -/
theorem distributionShares_spec_witness :
    ((distributionShares [recPos]).map Prod.snd).sum = 1
    ∧ (distributionShares [recZero]).map Prod.snd = List.replicate 1 0 :=
  ⟨(distributionShares_spec [recPos]).2.2.1 (by norm_num [totalProduction, recPos, normalizeRow, rawBelgium]),
   (distributionShares_spec [recZero]).2.2.2
     (by simp [totalProduction, recZero, normalizeRow, rawNR])⟩

instance : IsTotal Record (fun a b => b.productionTBq ≤ a.productionTBq) :=
  ⟨fun a b => le_total b.productionTBq a.productionTBq⟩

instance : IsTrans Record (fun a b => b.productionTBq ≤ a.productionTBq) :=
  ⟨fun _ _ _ h h2 => le_trans h2 h⟩

/-- Two records tied at production `5`, distinguished by country. -/
def recTieA : Record :=
  { country := "A", productionTBq := 5, isotopes := [], latitude := 0,
    longitude := 0, isoCode := "" }

/-- The second record of the tie. -/
def recTieB : Record :=
  { country := "B", productionTBq := 5, isotopes := [], latitude := 0,
    longitude := 0, isoCode := "" }

/-- Concrete check of the stability of the descending sort: two records
tied at production `5` keep their input order. -/
theorem sort_values_desc_tie_kept :
    sort_values_desc [recTieA, recTieB] = [recTieA, recTieB] := by
  decide

/-- C5: `top_countries view n` is the first `n` records (all of them when
the view is shorter) of the view sorted non-increasing by `productionTBq`;
the sorted sequence is a permutation of the view (the input itself is not
mutated — the embedding is pure and the source sort returns a new frame);
and the sort is stable: for every production value, the records carrying it
appear in the sorted sequence in exactly their relative input order. -/
theorem top_countries_spec (view : List Record) (n : ℕ) :
    List.Sorted (fun a b => b.productionTBq ≤ a.productionTBq) (top_countries view n)
    ∧ (top_countries view n).length = min n view.length
    ∧ top_countries view n <+: sort_values_desc view
    ∧ (sort_values_desc view).Perm view
    ∧ ∀ q : ℚ, (sort_values_desc view).filter (fun r => r.productionTBq == q)
        = view.filter (fun r => r.productionTBq == q) := by
  have hperm : (sort_values_desc view).Perm view := by
    rw [sort_values_desc]
    exact List.perm_insertionSort (fun a b => b.productionTBq ≤ a.productionTBq) view
  have hsorted : List.Sorted (fun a b => b.productionTBq ≤ a.productionTBq)
      (sort_values_desc view) := by
    rw [sort_values_desc]
    exact List.sorted_insertionSort
      (fun a b : Record => b.productionTBq ≤ a.productionTBq) view
  refine ⟨?_, ?_, List.take_prefix n _, hperm, ?_⟩
  · exact List.Pairwise.sublist (List.take_sublist n _) hsorted
  · rw [top_countries, List.length_take, hperm.length_eq]
  · intro q
    have hpw : (view.filter (fun r => r.productionTBq == q)).Pairwise
        (fun a b => b.productionTBq ≤ a.productionTBq) := by
      apply List.pairwise_of_forall_mem_list
      intro a ha b hb
      have ha2 : a.productionTBq = q := by
        simpa using (List.mem_filter.mp ha).2
      have hb2 : b.productionTBq = q := by
        simpa using (List.mem_filter.mp hb).2
      rw [ha2, hb2]
    have hsub : (view.filter (fun r => r.productionTBq == q)).Sublist
        (sort_values_desc view) := by
      rw [sort_values_desc]
      exact List.sublist_insertionSort hpw (List.filter_sublist view)
    have hsub2 := hsub.filter (fun r => r.productionTBq == q)
    rw [List.filter_filter] at hsub2
    simp only [Bool.and_self] at hsub2
    have hlen : ((sort_values_desc view).filter (fun r => r.productionTBq == q)).length
        = (view.filter (fun r => r.productionTBq == q)).length :=
      (hperm.filter (fun r => r.productionTBq == q)).length_eq
    exact (hsub2.eq_of_length hlen.symm).symm

/-- Membership in the first-seen fold: an element is collected exactly when
it is already in the accumulator or occurs in the remaining input. -/
theorem mem_firstSeen_foldl (l : List String) (acc : List String) (a : String) :
    a ∈ l.foldl (fun acc x => if x ∈ acc then acc else acc ++ [x]) acc
    ↔ a ∈ acc ∨ a ∈ l := by
  induction l generalizing acc with
  | nil => simp
  | cons x xs ih =>
    simp only [List.foldl_cons]
    by_cases hx : x ∈ acc
    · rw [if_pos hx, ih]
      constructor
      · rintro (h | h)
        · exact Or.inl h
        · exact Or.inr (List.mem_cons_of_mem x h)
      · rintro (h | h)
        · exact Or.inl h
        · rcases List.mem_cons.mp h with rfl | h
          · exact Or.inl hx
          · exact Or.inr h
    · rw [if_neg hx, ih]
      simp only [List.mem_append, List.mem_singleton, List.mem_cons]
      tauto

/-- The first-seen fold keeps the accumulator duplicate-free. -/
theorem nodup_firstSeen_foldl (l : List String) (acc : List String)
    (h : acc.Nodup) :
    (l.foldl (fun acc x => if x ∈ acc then acc else acc ++ [x]) acc).Nodup := by
  induction l generalizing acc with
  | nil => simpa using h
  | cons x xs ih =>
    simp only [List.foldl_cons]
    by_cases hx : x ∈ acc
    · rw [if_pos hx]
      exact ih acc h
    · rw [if_neg hx]
      exact ih (acc ++ [x]) (by simp [List.nodup_append, h, hx])

/-- `firstSeenKeys` lists exactly the values of its input. -/
theorem mem_firstSeenKeys (l : List String) (a : String) :
    a ∈ firstSeenKeys l ↔ a ∈ l := by
  rw [firstSeenKeys, mem_firstSeen_foldl]
  simp

/-- `firstSeenKeys` is duplicate-free. -/
theorem nodup_firstSeenKeys (l : List String) : (firstSeenKeys l).Nodup :=
  nodup_firstSeen_foldl l [] List.nodup_nil

/-- `value_counts` is a permutation of the first-seen key/count table. -/
theorem value_counts_perm (l : List String) :
    (value_counts l).Perm ((firstSeenKeys l).map (fun x => (x, l.count x))) := by
  rw [value_counts]
  exact List.perm_insertionSort _ _

/-- Every count reported by `value_counts` is the raw occurrence count. -/
theorem value_counts_count (l : List String) (X : String) (n : ℕ)
    (h : (X, n) ∈ value_counts l) : n = l.count X := by
  have hmem := (value_counts_perm l).mem_iff.mp h
  rcases List.mem_map.mp hmem with ⟨x, _, heq⟩
  rcases Prod.mk.injEq .. |>.mp heq with ⟨rfl, rfl⟩
  rfl

/-- Every value of the input is reported by `value_counts`, with its raw
occurrence count. -/
theorem value_counts_complete (l : List String) (X : String) (h : X ∈ l) :
    (X, l.count X) ∈ value_counts l :=
  (value_counts_perm l).mem_iff.mpr
    (List.mem_map.mpr ⟨X, (mem_firstSeenKeys l X).mpr h, rfl⟩)

/-- `value_counts` reports each value at most once. -/
theorem value_counts_keys_nodup (l : List String) :
    ((value_counts l).map Prod.fst).Nodup := by
  have hperm := (value_counts_perm l).map Prod.fst
  rw [hperm.nodup_iff, List.map_map]
  simpa [Function.comp_def] using nodup_firstSeenKeys l

instance : IsTotal (String × ℕ) (fun a b => b.2 ≤ a.2) :=
  ⟨fun a b => le_total b.2 a.2⟩

instance : IsTrans (String × ℕ) (fun a b => b.2 ≤ a.2) :=
  ⟨fun _ _ _ h h2 => le_trans h2 h⟩

/-- `value_counts` output is sorted non-increasing by count. -/
theorem value_counts_sorted (l : List String) :
    List.Sorted (fun a b : String × ℕ => b.2 ≤ a.2) (value_counts l) := by
  rw [value_counts]
  exact List.sorted_insertionSort (fun a b : String × ℕ => b.2 ≤ a.2)
    ((firstSeenKeys l).map (fun x => (x, l.count x)))

/-- The descending sort inside `value_counts` is stable: for every count
value, the entries carrying it keep their first-seen key order. -/
theorem value_counts_stable (l : List String) (n : ℕ) :
    (value_counts l).filter (fun pr => pr.2 == n)
    = ((firstSeenKeys l).map (fun x => (x, l.count x))).filter (fun pr => pr.2 == n) := by
  have hpw : (((firstSeenKeys l).map (fun x => (x, l.count x))).filter
      (fun pr => pr.2 == n)).Pairwise (fun a b : String × ℕ => b.2 ≤ a.2) := by
    apply List.pairwise_of_forall_mem_list
    intro a ha b hb
    have ha2 : a.2 = n := by
      simpa using (List.mem_filter.mp ha).2
    have hb2 : b.2 = n := by
      simpa using (List.mem_filter.mp hb).2
    rw [ha2, hb2]
  have hsub : (((firstSeenKeys l).map (fun x => (x, l.count x))).filter
      (fun pr => pr.2 == n)).Sublist (value_counts l) := by
    rw [value_counts]
    exact List.sublist_insertionSort hpw (List.filter_sublist _)
  have hsub2 := hsub.filter (fun pr => pr.2 == n)
  rw [List.filter_filter] at hsub2
  simp only [Bool.and_self] at hsub2
  have hlen : ((value_counts l).filter (fun pr => pr.2 == n)).length
      = (((firstSeenKeys l).map (fun x => (x, l.count x))).filter
          (fun pr => pr.2 == n)).length :=
    ((value_counts_perm l).filter (fun pr => pr.2 == n)).length_eq
  exact (hsub2.eq_of_length hlen.symm).symm

/-- A row contributing the isotope A-1, seen before B-2. -/
def rawTie1 : RawRecord :=
  { country := "Belgium", major_Isotopes := some "A-1",
    total_Production_TBq := some 100 }

/-- A row contributing the isotope B-2, seen after A-1. -/
def rawTie2 : RawRecord :=
  { country := "France", major_Isotopes := some "B-2",
    total_Production_TBq := some 200 }

/-- Concrete check of first-seen tie order: two isotopes each occurring
once (a count tie) are reported in first-seen order. -/
theorem isotope_counts_tie_first_seen :
    isotope_counts (buildDataset [rawTie1, rawTie2]) = [("A-1", 1), ("B-2", 1)] := by
  decide

/-- C1: `isotope_counts` is computed from the unfiltered canonical
dataset — it does not depend on the active filter specification — the
count reported for an isotope equals the total number of its occurrences
across all records' isotope lists (repeats within one record each
counted), every occurring isotope is reported exactly once, the output is
sorted non-increasing by count, and count ties are broken by first-seen
isotope order: for every count value, the entries carrying it keep the
first-seen key order. -/
theorem isotope_counts_spec (raw : List RawRecord) (sp : FilterSpec) :
    (∀ sp2 : FilterSpec,
      (runDashboard raw sp).isotopeCounts = (runDashboard raw sp2).isotopeCounts)
    ∧ (runDashboard raw sp).isotopeCounts = isotope_counts (buildDataset raw)
    ∧ (∀ X n, (X, n) ∈ isotope_counts (buildDataset raw) →
        n = (all_isotopes (buildDataset raw)).count X)
    ∧ (∀ X, X ∈ all_isotopes (buildDataset raw) →
        (X, (all_isotopes (buildDataset raw)).count X)
          ∈ isotope_counts (buildDataset raw))
    ∧ ((isotope_counts (buildDataset raw)).map Prod.fst).Nodup
    ∧ List.Sorted (fun a b : String × ℕ => b.2 ≤ a.2)
        (isotope_counts (buildDataset raw))
    ∧ (∀ n : ℕ, (isotope_counts (buildDataset raw)).filter (fun pr => pr.2 == n)
        = ((firstSeenKeys (all_isotopes (buildDataset raw))).map
            (fun x => (x, (all_isotopes (buildDataset raw)).count x))).filter
              (fun pr => pr.2 == n)) := by
  refine ⟨fun _ => rfl, rfl, ?_, ?_, ?_, ?_, ?_⟩
  · intro X n h
    exact value_counts_count (all_isotopes (buildDataset raw)) X n h
  · intro X h
    exact value_counts_complete (all_isotopes (buildDataset raw)) X h
  · exact value_counts_keys_nodup (all_isotopes (buildDataset raw))
  · exact value_counts_sorted (all_isotopes (buildDataset raw))
  · intro n
    exact value_counts_stable (all_isotopes (buildDataset raw)) n

/-- Witness for C1: the isotope Mo-99 of the Belgium row is reported with
its raw occurrence count. -/
theorem isotope_counts_spec_witness :
    ("Mo-99", (all_isotopes (buildDataset [rawBelgium])).count "Mo-99")
      ∈ isotope_counts (buildDataset [rawBelgium]) :=
  (isotope_counts_spec [rawBelgium] spEmpty).2.2.2.1 "Mo-99" (by decide)

end IsotopeViz
